import Mathlib

/-!
# Verification of the NARSAD condition-extraction / contrast-generation core

This file gives a shallow embedding of the core algorithmic logic of the
repository:

* `extract_cs_conditions` (src/first_level_workflows.py, also duplicated
  verbatim as `extract_cs_conditions_new` in src/generate_contrasts.py):
  partitions a trial table into first-vs-other occurrences per condition
  family (CS-, CSS, CSR) and augments the table with a `conditions` column.
* `create_interesting_contrasts` (src/first_level_workflows.py): the fixed
  curated list of nine contrasts, filtered by condition availability.
* `create_contrasts` (src/generate_contrasts.py): minimal / standard /
  other contrast policies over the derived condition labels.

Modelling notes:
* A pandas DataFrame row is a `Trial` (columns `trial_type`, `onset`); the
  `duration` column is never read by the embedded functions, so it is
  omitted from the record.  Onsets (floats in the source) are modelled as
  rationals.
* The dynamic `isinstance(df, pd.DataFrame)` check is modelled by the
  `PyObj` sum type: an argument is either a DataFrame (a column-name list
  plus rows) or some non-DataFrame object.
* Python's `str.startswith(p)` is `pyStartsWith`, prefix comparison on the
  character list.
* `cs_trials.sort_values('onset').index[0]` — the row index of the
  chronologically first trial of a family — is modelled by `minOnsetFirst`,
  which returns the first row (in table order) achieving the minimal onset,
  i.e. the head of a stable sort by onset.
* Exceptions (`raise ValueError`) are modelled with `Except ValidationError`.
-/

/-- One row of the trial-events DataFrame: columns `trial_type` and `onset`
(the only columns read by `extract_cs_conditions`). -/
structure Trial where
  trial_type : String
  onset : ℚ
deriving DecidableEq, Repr

/-- A row of the augmented DataFrame `df_work`: the original columns plus
the derived `conditions` column. -/
structure AugTrial where
  trial_type : String
  onset : ℚ
  conditions : String
deriving DecidableEq, Repr

/-- A Python argument that may or may not be a pandas DataFrame, for the
`isinstance(df_trial_info, pd.DataFrame)` check.  A DataFrame carries its
column-name list (checked for `trial_type`/`onset`) and its rows. -/
inductive PyObj where
  | df (columns : List String) (rows : List Trial)
  | nonDF
deriving DecidableEq, Repr

/-- The three `raise ValueError(...)` cases of `extract_cs_conditions`. -/
inductive ValidationError where
  | wrongType
  | emptyInput
  | missingColumns (missing : List String)
deriving DecidableEq, Repr

/-- Python `s.startswith(p)`: prefix test on the character sequence. -/
def pyStartsWith (s p : String) : Bool :=
  p.data.isPrefixOf s.data

/-- Membership test of the CS- family
(`startswith('CS-') & ~startswith('CSS') & ~startswith('CSR')`). -/
def isCSminus (s : String) : Bool :=
  pyStartsWith s "CS-" && !(pyStartsWith s "CSS") && !(pyStartsWith s "CSR")

/-- Membership test of the CSS family (`startswith('CSS')`). -/
def isCSSfam (s : String) : Bool :=
  pyStartsWith s "CSS"

/-- Membership test of the CSR family (`startswith('CSR')`). -/
def isCSRfam (s : String) : Bool :=
  pyStartsWith s "CSR"

/-- The rows of one condition family together with their DataFrame row
indices: `df_work[df_work['trial_type'].str.startswith(...)]`
(default integer index, so index = position). -/
def familyTrials (p : String → Bool) (rows : List Trial) : List (ℕ × Trial) :=
  rows.enum.filter (fun x => p x.2.trial_type)

/-- The row of a family with minimal onset, ties resolved to the earliest
table position: models `fam.sort_values('onset').index[0]` (head of the
sort by ascending onset with stable tie-break). -/
def minOnsetFirst : List (ℕ × Trial) → Option (ℕ × Trial)
  | [] => none
  | x :: xs => some (xs.foldl (fun b y => if y.2.onset < b.2.onset then y else b) x)

/-- One family's update block of `extract_cs_conditions`:
if the family is non-empty, write `firstLbl` into the `conditions` column at
the first trial's index and `othersLbl` at every other index of the family
(the source performs the two `df_work.loc[...] = ...` writes separately;
their index sets are disjoint, so one traversal makes both writes). -/
def applyFamily (fam : List (ℕ × Trial)) (firstLbl othersLbl : String)
    (df : List AugTrial) : List AugTrial :=
  match minOnsetFirst fam with
  | none => df
  | some m =>
    let others := (fam.map Prod.fst).filter (fun i => i ≠ m.1)
    df.enum.map (fun x =>
      if x.1 = m.1 then { x.2 with conditions := firstLbl }
      else if x.1 ∈ others then { x.2 with conditions := othersLbl }
      else x.2)

/-- `pd.unique` / `.unique().tolist()`: deduplicate keeping the first
occurrence of each value, in order of appearance. -/
def uniqueList (xs : List String) : List String :=
  xs.foldl (fun acc x => if x ∈ acc then acc else acc ++ [x]) []

/-- The per-family summary dict (`{'first': ..., 'other': [...]}`). -/
structure CondInfo where
  first : Option String
  other : List String
deriving DecidableEq, Repr

/-- The tuple returned by `extract_cs_conditions`. -/
structure ExtractResult where
  df_work : List AugTrial
  cs_conditions : CondInfo
  css_conditions : CondInfo
  csr_conditions : CondInfo
  other_conditions : List String
deriving DecidableEq, Repr

/-- The body of `extract_cs_conditions` after input validation:
initialise `conditions := trial_type`, select the three family subsets,
run the three first/others update blocks, and assemble the summaries
and `other_conditions` (labels not starting with `'CS'`). -/
def extractCore (rows : List Trial) : ExtractResult :=
  let df0 : List AugTrial := rows.map (fun t => ⟨t.trial_type, t.onset, t.trial_type⟩)
  let cs_trials := familyTrials isCSminus rows
  let css_trials := familyTrials isCSSfam rows
  let csr_trials := familyTrials isCSRfam rows
  let df1 := applyFamily cs_trials "CS-_first" "CS-_others" df0
  let df2 := applyFamily css_trials "CSS_first" "CSS_others" df1
  let df3 := applyFamily csr_trials "CSR_first" "CSR_others" df2
  let uniq := uniqueList (df3.map (·.conditions))
  { df_work := df3
    cs_conditions :=
      ⟨if "CS-_first" ∈ uniq then some "CS-_first" else none,
       if "CS-_others" ∈ uniq then ["CS-_others"] else []⟩
    css_conditions :=
      ⟨if "CSS_first" ∈ uniq then some "CSS_first" else none,
       if "CSS_others" ∈ uniq then ["CSS_others"] else []⟩
    csr_conditions :=
      ⟨if "CSR_first" ∈ uniq then some "CSR_first" else none,
       if "CSR_others" ∈ uniq then ["CSR_others"] else []⟩
    other_conditions :=
      uniqueList ((df3.filter (fun a => !(pyStartsWith a.trial_type "CS"))).map
        (·.trial_type)) }

/-- `extract_cs_conditions(df_trial_info)` from src/first_level_workflows.py
(lines 28–122); src/generate_contrasts.py's `extract_cs_conditions_new` is a
verbatim copy of the same code.  Validation order follows the source:
DataFrame type test, emptiness test, required-columns test. -/
def extract_cs_conditions : PyObj → Except ValidationError ExtractResult
  | .nonDF => .error .wrongType
  | .df columns rows =>
    if rows.isEmpty then .error .emptyInput
    else
      let missing := (["trial_type", "onset"]).filter (fun c => !(columns.contains c))
      if missing.isEmpty then .ok (extractCore rows)
      else .error (.missingColumns missing)

/-- `create_interesting_contrasts`' contrast tuples
`(name, 'T', [cond1, cond2], [1, -1])`. -/
structure Contrast where
  name : String
  kind : String
  conditions : List String
  weights : List Int
deriving DecidableEq, Repr

instance {ε α : Type} [DecidableEq ε] [DecidableEq α] : DecidableEq (Except ε α) :=
  fun a b =>
  match a, b with
  | .ok x, .ok y =>
    if h : x = y then isTrue (by rw [h])
    else isFalse (by intro hh; cases hh; exact h rfl)
  | .error x, .error y =>
    if h : x = y then isTrue (by rw [h])
    else isFalse (by intro hh; cases hh; exact h rfl)
  | .ok _, .error _ => isFalse (by intro hh; cases hh)
  | .error _, .ok _ => isFalse (by intro hh; cases hh)

/-! ## Per-row characterisation of the extraction

The three family-update blocks write disjoint row sets (the family
predicates are mutually exclusive), so the `conditions` value of each row
of `df_work` is determined row-locally by `condFor` below.  The lemmas in
this section prove that characterisation from the sequential definition. -/

/-- The row index receiving `<family>_first`, if the family is non-empty. -/
def famFirstIdx (p : String → Bool) (rows : List Trial) : Option ℕ :=
  (minOnsetFirst (familyTrials p rows)).map Prod.fst

/-- Row-local description of the derived `conditions` value of row `i`
holding trial `t` (proved equal to what `extractCore` computes). -/
def condFor (rows : List Trial) (i : ℕ) (t : Trial) : String :=
  if isCSminus t.trial_type then
    (if famFirstIdx isCSminus rows = some i then "CS-_first" else "CS-_others")
  else if isCSSfam t.trial_type then
    (if famFirstIdx isCSSfam rows = some i then "CSS_first" else "CSS_others")
  else if isCSRfam t.trial_type then
    (if famFirstIdx isCSRfam rows = some i then "CSR_first" else "CSR_others")
  else t.trial_type

/-- Stage view: `df_work` after initialising `conditions := trial_type`. -/
def stage0 (rows : List Trial) : List AugTrial :=
  rows.map (fun t => ⟨t.trial_type, t.onset, t.trial_type⟩)

/-- Stage view: `df_work` after the CS- update block. -/
def stage1 (rows : List Trial) : List AugTrial :=
  applyFamily (familyTrials isCSminus rows) "CS-_first" "CS-_others" (stage0 rows)

/-- Stage view: `df_work` after the CSS update block. -/
def stage2 (rows : List Trial) : List AugTrial :=
  applyFamily (familyTrials isCSSfam rows) "CSS_first" "CSS_others" (stage1 rows)

/-- Stage view: `df_work` after the CSR update block (the final `df_work`). -/
def stage3 (rows : List Trial) : List AugTrial :=
  applyFamily (familyTrials isCSRfam rows) "CSR_first" "CSR_others" (stage2 rows)

/-- Helper of `pySplit`: scan the character list, cutting a piece at each
occurrence of the (non-empty) separator; the fuel argument (initialised to
the list length, which bounds the number of steps) makes the recursion
structural. -/
def pySplitAux (sep : List Char) : ℕ → List Char → List Char → List (List Char)
  | _, acc, [] => [acc.reverse]
  | 0, acc, s => [acc.reverse ++ s]
  | fuel + 1, acc, c :: rest =>
    if sep.isPrefixOf (c :: rest) then
      acc.reverse :: pySplitAux sep fuel [] ((c :: rest).drop sep.length)
    else
      pySplitAux sep fuel (c :: acc) rest

/-- Python `s.split(sep)` for a non-empty separator: split at each
non-overlapping occurrence of `sep`, left to right. -/
def pySplit (s sep : String) : List String :=
  (pySplitAux sep.data s.data.length [] s.data).map String.mk

/-- Python `str.strip()`: remove leading and trailing whitespace. -/
def pyStrip (s : String) : String :=
  String.mk (((s.data.dropWhile Char.isWhitespace).reverse.dropWhile
    Char.isWhitespace).reverse)

/-- The trial count of one derived condition label:
`len(df_with_conditions[df_with_conditions['conditions'] == condition])`
(also the value of `conditions_with_trials.get(condition, 0)`, which is `0`
exactly when the label is absent). -/
def condCount (df : List AugTrial) (c : String) : ℕ :=
  (df.filter (fun a => a.conditions = c)).length

/-- The `interesting_contrasts` name list of `create_interesting_contrasts`
(src/first_level_workflows.py lines 326–336); the paired human-readable
descriptions are only logged and play no role in the logic. -/
def interestingContrastNames : List String :=
  ["CS-_others > FIXATION",
   "CSS_others > FIXATION",
   "CSR_others > FIXATION",
   "CSS_others > CSR_others",
   "CSR_others > CSS_others",
   "CSS_others > CS-_others",
   "CSR_others > CS-_others",
   "CS-_others > CSS_others",
   "CS-_others > CSR_others"]

/-- One iteration of `create_interesting_contrasts`' loop: parse the
curated name on `' > '` (each of the nine names contains it exactly once),
strip the two condition names, and keep the contrast only if both
conditions exist among the derived labels and have trials. -/
def interestingOne (all_conditions : List String) (df_with_conditions : List AugTrial)
    (contrast_name : String) : Option Contrast :=
  match pySplit contrast_name " > " with
  | [c1, c2] =>
    let condition1 := pyStrip c1
    let condition2 := pyStrip c2
    if condition1 ∈ all_conditions ∧ condition2 ∈ all_conditions ∧
        0 < condCount df_with_conditions condition1 ∧
        0 < condCount df_with_conditions condition2 then
      some ⟨contrast_name, "T", [condition1, condition2], [1, -1]⟩
    else none
  | _ => none

/-- `create_interesting_contrasts(df_with_conditions, ...)` from
src/first_level_workflows.py (lines 301–367).  The four condition-summary
arguments of the source are only logged, so they are omitted here. -/
def create_interesting_contrasts (df_with_conditions : List AugTrial) : List Contrast :=
  let all_conditions := uniqueList (df_with_conditions.map (·.conditions))
  interestingContrastNames.filterMap (interestingOne all_conditions df_with_conditions)

/-- The condition labels referenced by a curated contrast name: the parts
of the name split on `' > '`, stripped. -/
def contrastRefs (n : String) : List String :=
  (pySplit n " > ").map pyStrip

/-- `extract_cs_conditions_new` of src/generate_contrasts.py is a verbatim
copy of `extract_cs_conditions` of src/first_level_workflows.py. -/
def extract_cs_conditions_new : PyObj → Except ValidationError ExtractResult :=
  extract_cs_conditions

/-- `create_contrasts(df_trial_info, contrast_type)` from
src/generate_contrasts.py (lines 92–116): extract conditions, then build
the policy's contrast list from the unique derived labels.  The `standard`
branch is the double `enumerate` loop guarded by `i < j`; any
`contrast_type` other than `'minimal'`/`'standard'` leaves the initial
empty contrast list untouched. -/
def create_contrasts (df_trial_info : PyObj) (contrast_type : String) :
    Except ValidationError (List Contrast × List String × List AugTrial) :=
  match extract_cs_conditions_new df_trial_info with
  | .error e => .error e
  | .ok r =>
    let df_with_conditions := r.df_work
    let all_contrast_conditions := uniqueList (df_with_conditions.map (·.conditions))
    let contrasts : List Contrast :=
      if contrast_type = "minimal" then
        all_contrast_conditions.map (fun condition =>
          ⟨condition ++ ">baseline", "T", [condition], [1]⟩)
      else if contrast_type = "standard" then
        all_contrast_conditions.enum.flatMap (fun p =>
          all_contrast_conditions.enum.flatMap (fun q =>
            if p.1 < q.1 then
              [⟨p.2 ++ ">" ++ q.2, "T", [p.2, q.2], [1, -1]⟩,
               ⟨p.2 ++ "<" ++ q.2, "T", [p.2, q.2], [-1, 1]⟩]
            else []))
      else []
    .ok (contrasts, all_contrast_conditions, df_with_conditions)

/-- Modelled from the spec's description of the `standard` policy, for the
refinement comparison with `create_contrasts`: "for each unordered pair
{A,B} with A before B in enumeration order, emit both `A>B` (weights
[+1,-1]) and `A<B` (weights [-1,+1])", the two directions adjacent, pairs
in double-loop order. -/
def standardPairsSpec : List String → List Contrast
  | [] => []
  | c :: cs =>
    (cs.flatMap (fun c2 =>
      [⟨c ++ ">" ++ c2, "T", [c, c2], [1, -1]⟩,
       ⟨c ++ "<" ++ c2, "T", [c, c2], [-1, 1]⟩])) ++ standardPairsSpec cs

/-- Scenario A's trial table: (label, onset) pairs
`[("CS-",5),("CSS",10),("CSR",8),("CS-",15),("CSS",20),("CSR",18),("US",30),("FIXATION",0)]`. -/
def scenarioA : List Trial :=
  [⟨"CS-", 5⟩, ⟨"CSS", 10⟩, ⟨"CSR", 8⟩, ⟨"CS-", 15⟩, ⟨"CSS", 20⟩, ⟨"CSR", 18⟩,
   ⟨"US", 30⟩, ⟨"FIXATION", 0⟩]

/-- A trial table with zero CSR-prefixed trials, at least two CS- trials,
at least two CSS trials and a FIXATION trial (Scenario D's setting). -/
def scenarioD : List Trial :=
  [⟨"CS-", 5⟩, ⟨"CSS", 10⟩, ⟨"CS-", 15⟩, ⟨"CSS", 20⟩, ⟨"US", 30⟩, ⟨"FIXATION", 0⟩]

/-- A one-trial table whose label starts with `"CS"` but matches none of
the three families. -/
def csxTable : List Trial := [⟨"CSX", 0⟩]

/-- A two-trial table with two distinct non-family labels. -/
def pair2Table : List Trial := [⟨"US", 0⟩, ⟨"FIXATION", 1⟩]

lemma isCSminus_not_css {s : String} (h : isCSminus s = true) : isCSSfam s = false := by
  unfold isCSminus at h
  simp only [Bool.and_eq_true, Bool.not_eq_true'] at h
  exact h.1.2

lemma isCSminus_not_csr {s : String} (h : isCSminus s = true) : isCSRfam s = false := by
  unfold isCSminus at h
  simp only [Bool.and_eq_true, Bool.not_eq_true'] at h
  exact h.2

lemma css_not_csr {s : String} (h : isCSSfam s = true) : isCSRfam s = false := by
  unfold isCSSfam at h
  unfold isCSRfam
  unfold pyStartsWith at h ⊢
  rw [List.isPrefixOf_iff_prefix] at h
  rw [Bool.eq_false_iff, Ne, List.isPrefixOf_iff_prefix]
  intro hr
  obtain ⟨t1, h1⟩ := h
  obtain ⟨t2, h2⟩ := hr
  rw [← h1] at h2
  have h3 : ('C' :: 'S' :: 'R' :: t2 : List Char) = 'C' :: 'S' :: 'S' :: t1 := h2
  simp at h3

lemma minOnsetFirst_eq_none {l : List (ℕ × Trial)} :
    minOnsetFirst l = none ↔ l = [] := by
  cases l <;> simp [minOnsetFirst]

lemma foldl_min_mem (xs : List (ℕ × Trial)) (b : ℕ × Trial) :
    xs.foldl (fun b y => if y.2.onset < b.2.onset then y else b) b = b ∨
    xs.foldl (fun b y => if y.2.onset < b.2.onset then y else b) b ∈ xs := by
  induction xs generalizing b with
  | nil => exact Or.inl rfl
  | cons y ys ih =>
    simp only [List.foldl_cons]
    rcases ih (if y.2.onset < b.2.onset then y else b) with h | h
    · rw [h]
      split
      · exact Or.inr (List.mem_cons_self _ _)
      · exact Or.inl rfl
    · exact Or.inr (List.mem_cons_of_mem _ h)

lemma foldl_min_le (xs : List (ℕ × Trial)) (b : ℕ × Trial) :
    (xs.foldl (fun b y => if y.2.onset < b.2.onset then y else b) b).2.onset ≤ b.2.onset ∧
    ∀ y ∈ xs,
      (xs.foldl (fun b y => if y.2.onset < b.2.onset then y else b) b).2.onset ≤ y.2.onset := by
  induction xs generalizing b with
  | nil => exact ⟨le_refl _, by simp⟩
  | cons y ys ih =>
    simp only [List.foldl_cons]
    obtain ⟨h1, h2⟩ := ih (if y.2.onset < b.2.onset then y else b)
    constructor
    · refine le_trans h1 ?_
      split
      · next hlt => exact le_of_lt hlt
      · exact le_refl _
    · intro z hz
      rcases List.mem_cons.mp hz with rfl | hz
      · refine le_trans h1 ?_
        split
        · exact le_refl _
        · next hlt => exact le_of_not_lt hlt
      · exact h2 z hz

lemma minOnsetFirst_mem {l : List (ℕ × Trial)} {m : ℕ × Trial}
    (h : minOnsetFirst l = some m) : m ∈ l := by
  cases l with
  | nil => simp [minOnsetFirst] at h
  | cons x xs =>
    simp only [minOnsetFirst, Option.some.injEq] at h
    rcases foldl_min_mem xs x with h' | h'
    · rw [← h, h']
      exact List.mem_cons_self _ _
    · rw [← h]
      exact List.mem_cons_of_mem _ h'

lemma minOnsetFirst_le {l : List (ℕ × Trial)} {m : ℕ × Trial}
    (h : minOnsetFirst l = some m) : ∀ y ∈ l, m.2.onset ≤ y.2.onset := by
  cases l with
  | nil => simp [minOnsetFirst] at h
  | cons x xs =>
    simp only [minOnsetFirst, Option.some.injEq] at h
    intro y hy
    obtain ⟨h1, h2⟩ := foldl_min_le xs x
    rcases List.mem_cons.mp hy with rfl | hy
    · rw [← h]; exact h1
    · rw [← h]; exact h2 y hy

lemma mem_uniqueList_foldl (xs acc : List String) (x : String) :
    (x ∈ xs.foldl (fun acc x => if x ∈ acc then acc else acc ++ [x]) acc) ↔
      x ∈ acc ∨ x ∈ xs := by
  induction xs generalizing acc with
  | nil => simp
  | cons y ys ih =>
    simp only [List.foldl_cons, ih, List.mem_cons]
    by_cases hy : y ∈ acc
    · simp only [if_pos hy]
      constructor
      · tauto
      · rintro (h | rfl | h) <;> tauto
    · simp only [if_neg hy, List.mem_append, List.mem_singleton]
      tauto

lemma mem_uniqueList {xs : List String} {x : String} :
    x ∈ uniqueList xs ↔ x ∈ xs := by
  unfold uniqueList
  rw [mem_uniqueList_foldl]
  simp

lemma nodup_uniqueList_foldl (xs : List String) (acc : List String)
    (hacc : acc.Nodup) :
    (xs.foldl (fun acc x => if x ∈ acc then acc else acc ++ [x]) acc).Nodup := by
  induction xs generalizing acc with
  | nil => exact hacc
  | cons y ys ih =>
    simp only [List.foldl_cons]
    refine ih _ ?_
    by_cases hy : y ∈ acc
    · simpa [if_pos hy] using hacc
    · rw [if_neg hy]
      simpa [List.nodup_append] using ⟨hacc, hy⟩

lemma nodup_uniqueList (xs : List String) : (uniqueList xs).Nodup :=
  nodup_uniqueList_foldl xs [] List.nodup_nil

lemma mem_familyTrials {p : String → Bool} {rows : List Trial} {x : ℕ × Trial} :
    x ∈ familyTrials p rows ↔ x ∈ rows.enum ∧ p x.2.trial_type = true :=
  List.mem_filter

lemma mem_enum_getElem? {rows : List Trial} {i : ℕ} {t : Trial} :
    (i, t) ∈ rows.enum ↔ rows[i]? = some t := by
  simpa using (List.mem_enum_iff_getElem? (x := (i, t)) (l := rows))

lemma mem_familyTrials_of {p : String → Bool} {rows : List Trial} {i : ℕ}
    (h : i < rows.length) (hp : p rows[i].trial_type = true) :
    (i, rows[i]) ∈ familyTrials p rows := by
  rw [mem_familyTrials, mem_enum_getElem?]
  exact ⟨List.getElem?_eq_getElem h, hp⟩

lemma familyTrials_sound {p : String → Bool} {rows : List Trial} {i : ℕ} {t : Trial}
    (h : (i, t) ∈ familyTrials p rows) :
    ∃ (hi : i < rows.length), rows[i] = t ∧ p t.trial_type = true := by
  rw [mem_familyTrials, mem_enum_getElem?] at h
  obtain ⟨h1, h2⟩ := h
  have hi : i < rows.length := by
    by_contra hn
    rw [List.getElem?_eq_none (le_of_not_lt hn)] at h1
    cases h1
  refine ⟨hi, ?_, h2⟩
  rw [List.getElem?_eq_getElem hi] at h1
  exact Option.some.injEq _ _ ▸ h1.symm ▸ rfl

lemma applyFamily_length (fam : List (ℕ × Trial)) (f o : String) (df : List AugTrial) :
    (applyFamily fam f o df).length = df.length := by
  unfold applyFamily
  cases minOnsetFirst fam <;> simp [List.enum_length]

lemma applyFamily_getElem? (p : String → Bool) (f o : String) (rows : List Trial)
    (df : List AugTrial) (_hlen : df.length = rows.length) (i : ℕ)
    (hir : i < rows.length) (hi : i < df.length) :
    (applyFamily (familyTrials p rows) f o df)[i]? =
      some (if p rows[i].trial_type then
        { df[i] with conditions := if famFirstIdx p rows = some i then f else o }
      else df[i]) := by
  unfold applyFamily
  cases hm : minOnsetFirst (familyTrials p rows) with
  | none =>
    rw [minOnsetFirst_eq_none] at hm
    have hp : ¬ p rows[i].trial_type = true := by
      intro hp
      have := mem_familyTrials_of hir hp
      rw [hm] at this
      cases this
    simp only [Bool.not_eq_true] at hp
    simp [hp, List.getElem?_eq_getElem hi]
  | some m =>
    simp only
    have hlen2 : i < (List.map
        (fun x =>
          if x.1 = m.1 then { x.2 with conditions := f }
          else if x.1 ∈ ((familyTrials p rows).map Prod.fst).filter (fun j => j ≠ m.1) then
            { x.2 with conditions := o }
          else x.2) df.enum).length := by
      simpa [List.enum_length] using hi
    rw [List.getElem?_eq_getElem hlen2, List.getElem_map, List.getElem_enum]
    rw [Option.some.injEq]
    simp only
    by_cases hp : p rows[i].trial_type = true
    · by_cases him : i = m.1
      · subst him
        have hfi : famFirstIdx p rows = some m.1 := by
          unfold famFirstIdx
          rw [hm]
          rfl
        rw [if_pos rfl, if_pos hp, if_pos hfi]
      · have hmem : i ∈ ((familyTrials p rows).map Prod.fst).filter (fun j => j ≠ m.1) := by
          rw [List.mem_filter]
          refine ⟨List.mem_map.mpr ⟨(i, rows[i]), mem_familyTrials_of hir hp, rfl⟩, ?_⟩
          simpa using him
        have hfi : famFirstIdx p rows ≠ some i := by
          unfold famFirstIdx
          rw [hm]
          simp only [Option.map_some', ne_eq, Option.some.injEq]
          exact fun h => him h.symm
        rw [if_neg him, if_pos hmem, if_pos hp, if_neg hfi]
    · have hmm := minOnsetFirst_mem hm
      have him : i ≠ m.1 := by
        rintro rfl
        rw [← Prod.mk.eta (p := m)] at hmm
        obtain ⟨hi2, heq, hp2⟩ := familyTrials_sound hmm
        rw [← heq] at hp2
        exact hp hp2
      have hio : i ∉ ((familyTrials p rows).map Prod.fst).filter (fun j => j ≠ m.1) := by
        intro hmem
        rw [List.mem_filter] at hmem
        obtain ⟨x, hx, hx1⟩ := List.mem_map.mp hmem.1
        rw [← Prod.mk.eta (p := x), hx1] at hx
        obtain ⟨hi2, heq, hp2⟩ := familyTrials_sound hx
        rw [← heq] at hp2
        exact hp hp2
      rw [if_neg him, if_neg hio, if_neg hp]

lemma extractCore_df_work (rows : List Trial) :
    (extractCore rows).df_work = stage3 rows := rfl

lemma stage0_length (rows : List Trial) : (stage0 rows).length = rows.length :=
  List.length_map _ _

lemma stage1_length (rows : List Trial) : (stage1 rows).length = rows.length := by
  rw [stage1, applyFamily_length]; exact stage0_length rows

lemma stage2_length (rows : List Trial) : (stage2 rows).length = rows.length := by
  rw [stage2, applyFamily_length]; exact stage1_length rows

lemma stage3_length (rows : List Trial) : (stage3 rows).length = rows.length := by
  rw [stage3, applyFamily_length]; exact stage2_length rows

lemma extractCore_df_work_length (rows : List Trial) :
    (extractCore rows).df_work.length = rows.length := by
  rw [extractCore_df_work]; exact stage3_length rows

lemma stage0_getElem (rows : List Trial) (i : ℕ) (hi : i < rows.length)
    (hi0 : i < (stage0 rows).length) :
    (stage0 rows)[i] = ⟨(rows[i]).trial_type, (rows[i]).onset, (rows[i]).trial_type⟩ := by
  unfold stage0
  rw [List.getElem_map]

lemma extractCore_df_work_getElem? (rows : List Trial) (i : ℕ) (hi : i < rows.length) :
    (extractCore rows).df_work[i]? =
      some ⟨(rows[i]).trial_type, (rows[i]).onset, condFor rows i (rows[i])⟩ := by
  have hi0 : i < (stage0 rows).length := (stage0_length rows) ▸ hi
  have hi1 : i < (stage1 rows).length := (stage1_length rows) ▸ hi
  have hi2 : i < (stage2 rows).length := (stage2_length rows) ▸ hi
  have hi3 : i < (stage3 rows).length := (stage3_length rows) ▸ hi
  have e1 : (stage1 rows)[i] =
      (if isCSminus (rows[i].trial_type) then
        { (stage0 rows)[i] with
          conditions := if famFirstIdx isCSminus rows = some i then "CS-_first" else "CS-_others" }
      else (stage0 rows)[i]) :=
    Option.some.inj ((List.getElem?_eq_getElem hi1).symm.trans
      (applyFamily_getElem? isCSminus "CS-_first" "CS-_others" rows (stage0 rows)
        (stage0_length rows) i hi hi0))
  have e2 : (stage2 rows)[i] =
      (if isCSSfam (rows[i].trial_type) then
        { (stage1 rows)[i] with
          conditions := if famFirstIdx isCSSfam rows = some i then "CSS_first" else "CSS_others" }
      else (stage1 rows)[i]) :=
    Option.some.inj ((List.getElem?_eq_getElem hi2).symm.trans
      (applyFamily_getElem? isCSSfam "CSS_first" "CSS_others" rows (stage1 rows)
        (stage1_length rows) i hi hi1))
  have e3 : (stage3 rows)[i] =
      (if isCSRfam (rows[i].trial_type) then
        { (stage2 rows)[i] with
          conditions := if famFirstIdx isCSRfam rows = some i then "CSR_first" else "CSR_others" }
      else (stage2 rows)[i]) :=
    Option.some.inj ((List.getElem?_eq_getElem hi3).symm.trans
      (applyFamily_getElem? isCSRfam "CSR_first" "CSR_others" rows (stage2 rows)
        (stage2_length rows) i hi hi2))
  rw [extractCore_df_work, List.getElem?_eq_getElem hi3, Option.some.injEq, e3, e2, e1,
    stage0_getElem rows i hi hi0]
  unfold condFor
  by_cases hcs : isCSminus ((rows[i]).trial_type) = true
  · simp [hcs, isCSminus_not_css hcs, isCSminus_not_csr hcs]
  · simp only [Bool.not_eq_true] at hcs
    by_cases hss : isCSSfam ((rows[i]).trial_type) = true
    · simp [hcs, hss, css_not_csr hss]
    · simp only [Bool.not_eq_true] at hss
      by_cases hsr : isCSRfam ((rows[i]).trial_type) = true
      · simp [hcs, hss, hsr]
      · simp only [Bool.not_eq_true] at hsr
        simp [hcs, hss, hsr]

/-- The augmented table, row by row: row `i` keeps its `trial_type` and
`onset` and gets derived label `condFor rows i (rows[i])`. -/
lemma extractCore_df_work_eq (rows : List Trial) :
    (extractCore rows).df_work =
      rows.enum.map (fun x => ⟨x.2.trial_type, x.2.onset, condFor rows x.1 x.2⟩) := by
  refine List.ext_getElem ?_ ?_
  · rw [extractCore_df_work_length, List.length_map, List.enum_length]
  · intro n h1 h2
    rw [List.getElem_map, List.getElem_enum]
    have hn : n < rows.length := by rw [extractCore_df_work_length] at h1; exact h1
    exact Option.some.inj ((List.getElem?_eq_getElem h1).symm.trans
      (extractCore_df_work_getElem? rows n hn))

lemma mem_extractCore_df_work {rows : List Trial} {a : AugTrial} :
    a ∈ (extractCore rows).df_work ↔
      ∃ i, ∃ (hi : i < rows.length),
        a = ⟨(rows[i]).trial_type, (rows[i]).onset, condFor rows i (rows[i])⟩ := by
  rw [extractCore_df_work_eq, List.mem_map]
  constructor
  · rintro ⟨⟨i, t⟩, hmem, rfl⟩
    rw [mem_enum_getElem?] at hmem
    have hi : i < rows.length := by
      by_contra hn
      rw [List.getElem?_eq_none (le_of_not_lt hn)] at hmem
      cases hmem
    rw [List.getElem?_eq_getElem hi, Option.some.injEq] at hmem
    exact ⟨i, hi, by rw [hmem]⟩
  · rintro ⟨i, hi, rfl⟩
    exact ⟨(i, rows[i]),
      mem_enum_getElem?.mpr (List.getElem?_eq_getElem hi), rfl⟩

lemma condFor_cs_first_inv {rows : List Trial} {i : ℕ} {t : Trial}
    (h : condFor rows i t = "CS-_first") :
    isCSminus t.trial_type = true ∧ famFirstIdx isCSminus rows = some i := by
  unfold condFor at h
  split_ifs at h with h1 h2 h3 h4 h5 h6 <;>
    first
      | exact ⟨h1, h2⟩
      | exact absurd h (by decide)
      | (rw [h] at h1; exact absurd (by decide) h1)

lemma condFor_cs_others_inv {rows : List Trial} {i : ℕ} {t : Trial}
    (h : condFor rows i t = "CS-_others") :
    isCSminus t.trial_type = true ∧ famFirstIdx isCSminus rows ≠ some i := by
  unfold condFor at h
  split_ifs at h with h1 h2 h3 h4 h5 h6 <;>
    first
      | exact ⟨h1, h2⟩
      | exact absurd h (by decide)
      | (rw [h] at h1; exact absurd (by decide) h1)

lemma condFor_css_first_inv {rows : List Trial} {i : ℕ} {t : Trial}
    (h : condFor rows i t = "CSS_first") :
    isCSSfam t.trial_type = true ∧ famFirstIdx isCSSfam rows = some i := by
  unfold condFor at h
  split_ifs at h with h1 h2 h3 h4 h5 h6 <;>
    first
      | exact ⟨h3, h4⟩
      | exact absurd h (by decide)
      | (rw [h] at h3; exact absurd (by decide) h3)

lemma condFor_css_others_inv {rows : List Trial} {i : ℕ} {t : Trial}
    (h : condFor rows i t = "CSS_others") :
    isCSSfam t.trial_type = true ∧ famFirstIdx isCSSfam rows ≠ some i := by
  unfold condFor at h
  split_ifs at h with h1 h2 h3 h4 h5 h6 <;>
    first
      | exact ⟨h3, h4⟩
      | exact absurd h (by decide)
      | (rw [h] at h3; exact absurd (by decide) h3)

lemma condFor_csr_first_inv {rows : List Trial} {i : ℕ} {t : Trial}
    (h : condFor rows i t = "CSR_first") :
    isCSRfam t.trial_type = true ∧ famFirstIdx isCSRfam rows = some i := by
  unfold condFor at h
  split_ifs at h with h1 h2 h3 h4 h5 h6 <;>
    first
      | exact ⟨h5, h6⟩
      | exact absurd h (by decide)
      | (rw [h] at h5; exact absurd (by decide) h5)

lemma condFor_csr_others_inv {rows : List Trial} {i : ℕ} {t : Trial}
    (h : condFor rows i t = "CSR_others") :
    isCSRfam t.trial_type = true ∧ famFirstIdx isCSRfam rows ≠ some i := by
  unfold condFor at h
  split_ifs at h with h1 h2 h3 h4 h5 h6 <;>
    first
      | exact ⟨h5, h6⟩
      | exact absurd h (by decide)
      | (rw [h] at h5; exact absurd (by decide) h5)

lemma first_onset_le (p : String → Bool) (rows : List Trial) {i j : ℕ}
    (hj : j < rows.length)
    (hfi : famFirstIdx p rows = some i) (hi : i < rows.length)
    (hpj : p (rows[j]).trial_type = true) :
    (rows[i]).onset ≤ (rows[j]).onset := by
  unfold famFirstIdx at hfi
  cases hm : minOnsetFirst (familyTrials p rows) with
  | none => rw [hm] at hfi; cases hfi
  | some m =>
    rw [hm, Option.map_some', Option.some.injEq] at hfi
    subst hfi
    have hmm := minOnsetFirst_mem hm
    rw [← Prod.mk.eta (p := m)] at hmm
    obtain ⟨hml, hmeq, _⟩ := familyTrials_sound hmm
    have hle := minOnsetFirst_le hm (j, rows[j]) (mem_familyTrials_of hj hpj)
    rw [hmeq]
    exact hle

lemma familyTrials_length_aux (p : String → Bool) (rows : List Trial) (k : ℕ) :
    ((List.enumFrom k rows).filter (fun x => p x.2.trial_type)).length =
      (rows.filter (fun t => p t.trial_type)).length := by
  induction rows generalizing k with
  | nil => rfl
  | cons t ts ih =>
    simp only [List.enumFrom, List.filter_cons]
    by_cases hp : p t.trial_type = true
    · simp only [hp, if_pos]
      simp [ih (k + 1)]
    · simp only [Bool.not_eq_true] at hp
      simp [hp, ih (k + 1)]

/-- The family subset has as many rows as there are matching trials. -/
lemma familyTrials_length (p : String → Bool) (rows : List Trial) :
    (familyTrials p rows).length = (rows.filter (fun t => p t.trial_type)).length :=
  familyTrials_length_aux p rows 0

lemma familyTrials_eq_nil_iff (p : String → Bool) (rows : List Trial) :
    familyTrials p rows = [] ↔ (rows.filter (fun t => p t.trial_type)).length = 0 := by
  rw [← familyTrials_length, List.length_eq_zero]

lemma familyTrials_fst_nodup (p : String → Bool) (rows : List Trial) :
    ((familyTrials p rows).map Prod.fst).Nodup := by
  have hsub : List.Sublist (familyTrials p rows) rows.enum := List.filter_sublist _
  have hsub2 : List.Sublist ((familyTrials p rows).map Prod.fst)
      (rows.enum.map Prod.fst) := List.Sublist.map Prod.fst hsub
  rw [List.enum_map_fst] at hsub2
  exact (List.nodup_range rows.length).sublist hsub2

lemma two_le_length_of_mem_ne {α : Type} {l : List α} {x y : α}
    (hx : x ∈ l) (hy : y ∈ l) (hne : x ≠ y) : 2 ≤ l.length := by
  cases l with
  | nil => cases hx
  | cons a tail =>
    cases tail with
    | nil =>
      rw [List.mem_singleton] at hx hy
      exact absurd (hx.trans hy.symm) hne
    | cons b t2 => simp [Nat.succ_le_succ, Nat.le_add_left]

lemma exists_second_mem {l : List (ℕ × Trial)}
    (hnd : (l.map Prod.fst).Nodup) (hlen : 2 ≤ l.length) (m : ℕ × Trial) :
    ∃ e ∈ l, e.1 ≠ m.1 := by
  match l, hlen with
  | a :: b :: rest, _ =>
    have hab : a.1 ≠ b.1 := by
      simp only [List.map_cons, List.nodup_cons, List.mem_cons, List.mem_map] at hnd
      intro h
      exact hnd.1 (Or.inl h)
    by_cases ham : a.1 = m.1
    · exact ⟨b, List.mem_cons_of_mem _ (List.mem_cons_self _ _), by rw [← ham]; exact fun h => hab h.symm⟩
    · exact ⟨a, List.mem_cons_self _ _, ham⟩

lemma famFirstIdx_isSome_iff (p : String → Bool) (rows : List Trial) :
    (famFirstIdx p rows).isSome = true ↔ familyTrials p rows ≠ [] := by
  unfold famFirstIdx
  cases hm : minOnsetFirst (familyTrials p rows) with
  | none =>
    rw [minOnsetFirst_eq_none] at hm
    simp [hm]
  | some m =>
    have : familyTrials p rows ≠ [] := by
      intro h
      rw [h] at hm
      simp [minOnsetFirst] at hm
    simp [this]

lemma extractCore_cs_conditions (rows : List Trial) :
    (extractCore rows).cs_conditions =
      ⟨if "CS-_first" ∈ uniqueList ((extractCore rows).df_work.map (·.conditions)) then
          some "CS-_first" else none,
        if "CS-_others" ∈ uniqueList ((extractCore rows).df_work.map (·.conditions)) then
          ["CS-_others"] else []⟩ := rfl

lemma extractCore_css_conditions (rows : List Trial) :
    (extractCore rows).css_conditions =
      ⟨if "CSS_first" ∈ uniqueList ((extractCore rows).df_work.map (·.conditions)) then
          some "CSS_first" else none,
        if "CSS_others" ∈ uniqueList ((extractCore rows).df_work.map (·.conditions)) then
          ["CSS_others"] else []⟩ := rfl

lemma extractCore_csr_conditions (rows : List Trial) :
    (extractCore rows).csr_conditions =
      ⟨if "CSR_first" ∈ uniqueList ((extractCore rows).df_work.map (·.conditions)) then
          some "CSR_first" else none,
        if "CSR_others" ∈ uniqueList ((extractCore rows).df_work.map (·.conditions)) then
          ["CSR_others"] else []⟩ := rfl

lemma extractCore_other_conditions (rows : List Trial) :
    (extractCore rows).other_conditions =
      uniqueList (((extractCore rows).df_work.filter
        (fun a => !(pyStartsWith a.trial_type "CS"))).map (·.trial_type)) := rfl

lemma famFirstIdx_of_min {p : String → Bool} {rows : List Trial} {m : ℕ × Trial}
    (hm : minOnsetFirst (familyTrials p rows) = some m) :
    famFirstIdx p rows = some m.1 := by
  unfold famFirstIdx
  rw [hm]
  rfl

lemma cs_first_mem_iff (rows : List Trial) :
    "CS-_first" ∈ ((extractCore rows).df_work.map (·.conditions)) ↔
      familyTrials isCSminus rows ≠ [] := by
  constructor
  · intro h
    obtain ⟨a, ha, hac⟩ := List.mem_map.mp h
    obtain ⟨i, hi, rfl⟩ := mem_extractCore_df_work.mp ha
    obtain ⟨hp, hfi⟩ := condFor_cs_first_inv hac
    intro hnil
    unfold famFirstIdx at hfi
    rw [hnil] at hfi
    simp [minOnsetFirst] at hfi
  · intro h
    cases hm : minOnsetFirst (familyTrials isCSminus rows) with
    | none => rw [minOnsetFirst_eq_none] at hm; exact absurd hm h
    | some m =>
      have hmm := minOnsetFirst_mem hm
      rw [← Prod.mk.eta (p := m)] at hmm
      obtain ⟨hml, hmeq, hp⟩ := familyTrials_sound hmm
      have hcond : condFor rows m.1 rows[m.1] = "CS-_first" := by
        unfold condFor
        rw [hmeq, if_pos hp, if_pos (famFirstIdx_of_min hm)]
      exact List.mem_map.mpr ⟨_, mem_extractCore_df_work.mpr ⟨m.1, hml, rfl⟩, hcond⟩

lemma css_first_mem_iff (rows : List Trial) :
    "CSS_first" ∈ ((extractCore rows).df_work.map (·.conditions)) ↔
      familyTrials isCSSfam rows ≠ [] := by
  constructor
  · intro h
    obtain ⟨a, ha, hac⟩ := List.mem_map.mp h
    obtain ⟨i, hi, rfl⟩ := mem_extractCore_df_work.mp ha
    obtain ⟨hp, hfi⟩ := condFor_css_first_inv hac
    intro hnil
    unfold famFirstIdx at hfi
    rw [hnil] at hfi
    simp [minOnsetFirst] at hfi
  · intro h
    cases hm : minOnsetFirst (familyTrials isCSSfam rows) with
    | none => rw [minOnsetFirst_eq_none] at hm; exact absurd hm h
    | some m =>
      have hmm := minOnsetFirst_mem hm
      rw [← Prod.mk.eta (p := m)] at hmm
      obtain ⟨hml, hmeq, hp⟩ := familyTrials_sound hmm
      have hcond : condFor rows m.1 rows[m.1] = "CSS_first" := by
        unfold condFor
        rw [hmeq, if_neg ?hcs, if_pos hp, if_pos (famFirstIdx_of_min hm)]
        case hcs =>
          intro hcs
          rw [isCSminus_not_css hcs] at hp
          cases hp
      exact List.mem_map.mpr ⟨_, mem_extractCore_df_work.mpr ⟨m.1, hml, rfl⟩, hcond⟩

lemma csr_first_mem_iff (rows : List Trial) :
    "CSR_first" ∈ ((extractCore rows).df_work.map (·.conditions)) ↔
      familyTrials isCSRfam rows ≠ [] := by
  constructor
  · intro h
    obtain ⟨a, ha, hac⟩ := List.mem_map.mp h
    obtain ⟨i, hi, rfl⟩ := mem_extractCore_df_work.mp ha
    obtain ⟨hp, hfi⟩ := condFor_csr_first_inv hac
    intro hnil
    unfold famFirstIdx at hfi
    rw [hnil] at hfi
    simp [minOnsetFirst] at hfi
  · intro h
    cases hm : minOnsetFirst (familyTrials isCSRfam rows) with
    | none => rw [minOnsetFirst_eq_none] at hm; exact absurd hm h
    | some m =>
      have hmm := minOnsetFirst_mem hm
      rw [← Prod.mk.eta (p := m)] at hmm
      obtain ⟨hml, hmeq, hp⟩ := familyTrials_sound hmm
      have hcond : condFor rows m.1 rows[m.1] = "CSR_first" := by
        unfold condFor
        rw [hmeq, if_neg ?hcs, if_neg ?hss, if_pos hp, if_pos (famFirstIdx_of_min hm)]
        case hcs =>
          intro hcs
          rw [isCSminus_not_csr hcs] at hp
          cases hp
        case hss =>
          intro hss
          rw [css_not_csr hss] at hp
          cases hp
      exact List.mem_map.mpr ⟨_, mem_extractCore_df_work.mpr ⟨m.1, hml, rfl⟩, hcond⟩

lemma cs_others_mem_iff (rows : List Trial) :
    "CS-_others" ∈ ((extractCore rows).df_work.map (·.conditions)) ↔
      2 ≤ (familyTrials isCSminus rows).length := by
  constructor
  · intro h
    obtain ⟨a, ha, hac⟩ := List.mem_map.mp h
    obtain ⟨j, hj, rfl⟩ := mem_extractCore_df_work.mp ha
    obtain ⟨hp, hfi⟩ := condFor_cs_others_inv hac
    have hjm : (j, rows[j]) ∈ familyTrials isCSminus rows := mem_familyTrials_of hj hp
    cases hm : minOnsetFirst (familyTrials isCSminus rows) with
    | none =>
      rw [minOnsetFirst_eq_none] at hm
      rw [hm] at hjm
      cases hjm
    | some m =>
      have hmm := minOnsetFirst_mem hm
      have hne : m ≠ (j, rows[j]) := by
        intro he
        apply hfi
        rw [famFirstIdx_of_min hm, he]
      exact two_le_length_of_mem_ne hmm hjm hne
  · intro h2
    cases hm : minOnsetFirst (familyTrials isCSminus rows) with
    | none =>
      rw [minOnsetFirst_eq_none] at hm
      rw [hm] at h2
      simp at h2
    | some m =>
      obtain ⟨e, he, hne⟩ := exists_second_mem (familyTrials_fst_nodup _ _) h2 m
      rw [← Prod.mk.eta (p := e)] at he
      obtain ⟨hel, heq, hp⟩ := familyTrials_sound he
      have hfne : famFirstIdx isCSminus rows ≠ some e.1 := by
        rw [famFirstIdx_of_min hm]
        intro hcon
        exact hne (Option.some.inj hcon).symm
      have hcond : condFor rows e.1 rows[e.1] = "CS-_others" := by
        unfold condFor
        rw [heq, if_pos hp, if_neg hfne]
      exact List.mem_map.mpr ⟨_, mem_extractCore_df_work.mpr ⟨e.1, hel, rfl⟩, hcond⟩

lemma css_others_mem_iff (rows : List Trial) :
    "CSS_others" ∈ ((extractCore rows).df_work.map (·.conditions)) ↔
      2 ≤ (familyTrials isCSSfam rows).length := by
  constructor
  · intro h
    obtain ⟨a, ha, hac⟩ := List.mem_map.mp h
    obtain ⟨j, hj, rfl⟩ := mem_extractCore_df_work.mp ha
    obtain ⟨hp, hfi⟩ := condFor_css_others_inv hac
    have hjm : (j, rows[j]) ∈ familyTrials isCSSfam rows := mem_familyTrials_of hj hp
    cases hm : minOnsetFirst (familyTrials isCSSfam rows) with
    | none =>
      rw [minOnsetFirst_eq_none] at hm
      rw [hm] at hjm
      cases hjm
    | some m =>
      have hmm := minOnsetFirst_mem hm
      have hne : m ≠ (j, rows[j]) := by
        intro he
        apply hfi
        rw [famFirstIdx_of_min hm, he]
      exact two_le_length_of_mem_ne hmm hjm hne
  · intro h2
    cases hm : minOnsetFirst (familyTrials isCSSfam rows) with
    | none =>
      rw [minOnsetFirst_eq_none] at hm
      rw [hm] at h2
      simp at h2
    | some m =>
      obtain ⟨e, he, hne⟩ := exists_second_mem (familyTrials_fst_nodup _ _) h2 m
      rw [← Prod.mk.eta (p := e)] at he
      obtain ⟨hel, heq, hp⟩ := familyTrials_sound he
      have hfne : famFirstIdx isCSSfam rows ≠ some e.1 := by
        rw [famFirstIdx_of_min hm]
        intro hcon
        exact hne (Option.some.inj hcon).symm
      have hcond : condFor rows e.1 rows[e.1] = "CSS_others" := by
        unfold condFor
        rw [heq, if_neg ?hcs, if_pos hp, if_neg hfne]
        case hcs =>
          intro hcs
          rw [isCSminus_not_css hcs] at hp
          cases hp
      exact List.mem_map.mpr ⟨_, mem_extractCore_df_work.mpr ⟨e.1, hel, rfl⟩, hcond⟩

lemma csr_others_mem_iff (rows : List Trial) :
    "CSR_others" ∈ ((extractCore rows).df_work.map (·.conditions)) ↔
      2 ≤ (familyTrials isCSRfam rows).length := by
  constructor
  · intro h
    obtain ⟨a, ha, hac⟩ := List.mem_map.mp h
    obtain ⟨j, hj, rfl⟩ := mem_extractCore_df_work.mp ha
    obtain ⟨hp, hfi⟩ := condFor_csr_others_inv hac
    have hjm : (j, rows[j]) ∈ familyTrials isCSRfam rows := mem_familyTrials_of hj hp
    cases hm : minOnsetFirst (familyTrials isCSRfam rows) with
    | none =>
      rw [minOnsetFirst_eq_none] at hm
      rw [hm] at hjm
      cases hjm
    | some m =>
      have hmm := minOnsetFirst_mem hm
      have hne : m ≠ (j, rows[j]) := by
        intro he
        apply hfi
        rw [famFirstIdx_of_min hm, he]
      exact two_le_length_of_mem_ne hmm hjm hne
  · intro h2
    cases hm : minOnsetFirst (familyTrials isCSRfam rows) with
    | none =>
      rw [minOnsetFirst_eq_none] at hm
      rw [hm] at h2
      simp at h2
    | some m =>
      obtain ⟨e, he, hne⟩ := exists_second_mem (familyTrials_fst_nodup _ _) h2 m
      rw [← Prod.mk.eta (p := e)] at he
      obtain ⟨hel, heq, hp⟩ := familyTrials_sound he
      have hfne : famFirstIdx isCSRfam rows ≠ some e.1 := by
        rw [famFirstIdx_of_min hm]
        intro hcon
        exact hne (Option.some.inj hcon).symm
      have hcond : condFor rows e.1 rows[e.1] = "CSR_others" := by
        unfold condFor
        rw [heq, if_neg ?hcs, if_neg ?hss, if_pos hp, if_neg hfne]
        case hcs =>
          intro hcs
          rw [isCSminus_not_csr hcs] at hp
          cases hp
        case hss =>
          intro hss
          rw [css_not_csr hss] at hp
          cases hp
      exact List.mem_map.mpr ⟨_, mem_extractCore_df_work.mpr ⟨e.1, hel, rfl⟩, hcond⟩

lemma extract_ok_inv {x : PyObj} {r : ExtractResult}
    (h : extract_cs_conditions x = Except.ok r) :
    ∃ columns rows, x = PyObj.df columns rows ∧ rows ≠ [] ∧ r = extractCore rows := by
  cases x with
  | nonDF => exact Except.noConfusion h
  | df columns rows =>
    simp only [extract_cs_conditions] at h
    by_cases h1 : rows.isEmpty
    · rw [if_pos h1] at h
      exact Except.noConfusion h
    · rw [if_neg h1] at h
      by_cases h2 : ((["trial_type", "onset"]).filter (fun c => !(columns.contains c))).isEmpty
      · rw [if_pos h2] at h
        refine ⟨columns, rows, rfl, ?_, (Except.ok.inj h).symm⟩
        intro hnil
        rw [hnil] at h1
        exact h1 rfl
      · rw [if_neg h2] at h
        exact Except.noConfusion h

lemma interestingOne_name {all : List String} {df : List AugTrial} {n : String}
    {c : Contrast} (h : interestingOne all df n = some c) : c.name = n := by
  unfold interestingOne at h
  rcases hs : pySplit n " > " with _ | ⟨x, _ | ⟨y, _ | ⟨z, zs⟩⟩⟩ <;>
    (rw [hs] at h
     simp only [] at h
     first
       | exact Option.noConfusion h
       | (split_ifs at h with hcond
          first
            | exact Option.noConfusion h
            | rw [← Option.some.inj h]))

lemma interesting_mem_iff (df : List AugTrial) (n A B : String)
    (hn : n ∈ interestingContrastNames) (hsplit : pySplit n " > " = [A, B]) :
    (∃ c ∈ create_interesting_contrasts df, c.name = n) ↔
      (pyStrip A ∈ uniqueList (df.map (·.conditions)) ∧
       pyStrip B ∈ uniqueList (df.map (·.conditions)) ∧
       0 < condCount df (pyStrip A) ∧ 0 < condCount df (pyStrip B)) := by
  constructor
  · rintro ⟨c, hc, hcn⟩
    unfold create_interesting_contrasts at hc
    rw [List.mem_filterMap] at hc
    obtain ⟨a, ha, hfa⟩ := hc
    have hca : c.name = a := interestingOne_name hfa
    have hay : a = n := by rw [← hca, hcn]
    subst hay
    unfold interestingOne at hfa
    rw [hsplit] at hfa
    simp only [] at hfa
    split_ifs at hfa with hcond
    exact hcond
  · intro hcond
    refine ⟨⟨n, "T", [pyStrip A, pyStrip B], [1, -1]⟩, ?_, rfl⟩
    unfold create_interesting_contrasts
    rw [List.mem_filterMap]
    refine ⟨n, hn, ?_⟩
    unfold interestingOne
    rw [hsplit]
    simp only [if_pos hcond]

lemma flatMap_pair_length {α : Type} (l : List α) (f g : α → Contrast) :
    (l.flatMap (fun a => [f a, g a])).length = 2 * l.length := by
  induction l with
  | nil => rfl
  | cons a t ih =>
    simp only [List.flatMap_cons, List.length_append, ih]
    simp only [List.length_cons, List.length_nil]
    omega

lemma standardPairsSpec_length (l : List String) :
    (standardPairsSpec l).length = l.length * (l.length - 1) := by
  induction l with
  | nil => rfl
  | cons c cs ih =>
    simp only [standardPairsSpec, List.length_append, ih, flatMap_pair_length,
      List.length_cons]
    cases hn : cs.length with
    | zero => simp
    | succ m =>
      simp only [Nat.succ_sub_one]
      ring

lemma inner_loop_eq (c : String) (i : ℕ) (l : List String) (k : ℕ) :
    (List.enumFrom k l).flatMap (fun q =>
      if i < q.1 then
        [⟨c ++ ">" ++ q.2, "T", [c, q.2], [1, -1]⟩,
         ⟨c ++ "<" ++ q.2, "T", [c, q.2], [-1, 1]⟩]
      else ([] : List Contrast)) =
    (if i < k then l else l.drop (i + 1 - k)).flatMap (fun c2 =>
      [⟨c ++ ">" ++ c2, "T", [c, c2], [1, -1]⟩,
       ⟨c ++ "<" ++ c2, "T", [c, c2], [-1, 1]⟩]) := by
  induction l generalizing k with
  | nil => simp
  | cons x xs ih =>
    simp only [List.enumFrom, List.flatMap_cons]
    by_cases hik : i < k
    · rw [if_pos hik, if_pos hik, ih (k + 1), if_pos (Nat.lt_succ_of_lt hik)]
      simp [List.flatMap_cons]
    · rw [if_neg hik, if_neg hik]
      by_cases hik1 : i < k + 1
      · have hik0 : i + 1 - k = 1 := by omega
        rw [ih (k + 1), if_pos hik1, hik0]
        simp
      · have hik0 : i + 1 - k = (i + 1 - (k + 1)) + 1 := by omega
        rw [ih (k + 1), if_neg hik1, hik0]
        simp [List.drop_succ_cons]

lemma outer_loop_eq :
    ∀ (t : List String) (k : ℕ) (l : List String), l.drop k = t →
      (List.enumFrom k t).flatMap (fun p =>
        (l.drop (p.1 + 1)).flatMap (fun c2 =>
          [⟨p.2 ++ ">" ++ c2, "T", [p.2, c2], [1, -1]⟩,
           ⟨p.2 ++ "<" ++ c2, "T", [p.2, c2], [-1, 1]⟩])) = standardPairsSpec t := by
  intro t
  induction t with
  | nil => intro k l h; rfl
  | cons c cs ih =>
    intro k l h
    simp only [List.enumFrom, List.flatMap_cons]
    have hdrop : l.drop (k + 1) = cs := by
      rw [← List.drop_drop (n := 1) (m := k), h, List.drop_one]
      rfl
    rw [hdrop, ih (k + 1) l hdrop]
    rfl

lemma double_loop_eq_spec (l : List String) :
    l.enum.flatMap (fun p =>
      l.enum.flatMap (fun q =>
        if p.1 < q.1 then
          [⟨p.2 ++ ">" ++ q.2, "T", [p.2, q.2], [1, -1]⟩,
           ⟨p.2 ++ "<" ++ q.2, "T", [p.2, q.2], [-1, 1]⟩]
        else ([] : List Contrast))) = standardPairsSpec l := by
  have hinner : ∀ (p : ℕ × String),
      l.enum.flatMap (fun q =>
        if p.1 < q.1 then
          [⟨p.2 ++ ">" ++ q.2, "T", [p.2, q.2], [1, -1]⟩,
           ⟨p.2 ++ "<" ++ q.2, "T", [p.2, q.2], [-1, 1]⟩]
        else ([] : List Contrast)) =
      (l.drop (p.1 + 1)).flatMap (fun c2 =>
        [⟨p.2 ++ ">" ++ c2, "T", [p.2, c2], [1, -1]⟩,
         ⟨p.2 ++ "<" ++ c2, "T", [p.2, c2], [-1, 1]⟩]) := by
    intro p
    have h := inner_loop_eq p.2 p.1 l 0
    rw [if_neg (Nat.not_lt_zero p.1)] at h
    simpa using h
  simp only [hinner]
  exact outer_loop_eq l 0 l (by simp)

/-! ## Claim theorems -/

/-- C1: on the Scenario A table
`[("CS-",5),("CSS",10),("CSR",8),("CS-",15),("CSS",20),("CSR",18),("US",30),("FIXATION",0)]`,
`extract_cs_conditions` derives `CS-_first` for the CS- trial at onset 5 and
`CS-_others` at onset 15, `CSS_first` at 10 and `CSS_others` at 20,
`CSR_first` at 8 and `CSR_others` at 18, and leaves US and FIXATION
unchanged. -/
theorem C1_scenarioA_derived_labels :
    (extract_cs_conditions (PyObj.df ["trial_type", "onset"] scenarioA)).map
      (fun r => r.df_work) =
    Except.ok
      [⟨"CS-", 5, "CS-_first"⟩, ⟨"CSS", 10, "CSS_first"⟩, ⟨"CSR", 8, "CSR_first"⟩,
       ⟨"CS-", 15, "CS-_others"⟩, ⟨"CSS", 20, "CSS_others"⟩, ⟨"CSR", 18, "CSR_others"⟩,
       ⟨"US", 30, "US"⟩, ⟨"FIXATION", 0, "FIXATION"⟩] := by decide

/-- C5: `extract_cs_conditions` fails with the wrong-type error on a
non-DataFrame argument, with the empty-input error on a zero-row DataFrame,
and succeeds exactly when the table is non-empty and has both the
`trial_type` and the `onset` column. -/
theorem C5_validation :
    extract_cs_conditions PyObj.nonDF = Except.error ValidationError.wrongType ∧
    (∀ (columns : List String) (rows : List Trial), rows = [] →
      extract_cs_conditions (PyObj.df columns rows) =
        Except.error ValidationError.emptyInput) ∧
    (∀ (columns : List String) (rows : List Trial),
      (extract_cs_conditions (PyObj.df columns rows)).isOk = true ↔
        rows ≠ [] ∧ "trial_type" ∈ columns ∧ "onset" ∈ columns) := by
  refine ⟨rfl, ?_, ?_⟩
  · rintro columns rows rfl
    rfl
  · intro columns rows
    simp only [extract_cs_conditions]
    by_cases h1 : rows.isEmpty
    · rw [if_pos h1]
      rw [List.isEmpty_iff] at h1
      simp [h1, Except.isOk, Except.toBool]
    · have hne : rows ≠ [] := fun hnil => h1 (by rw [hnil]; rfl)
      rw [if_neg h1]
      have hc1 : columns.contains "trial_type" = true ↔ "trial_type" ∈ columns :=
        List.elem_iff
      have hc2 : columns.contains "onset" = true ↔ "onset" ∈ columns :=
        List.elem_iff
      cases hb1 : columns.contains "trial_type" <;>
        cases hb2 : columns.contains "onset" <;>
        rw [hb1] at hc1 <;> rw [hb2] at hc2 <;>
        simp [List.filter, hb1, hb2, hne, Except.isOk, Except.toBool, ← hc1, ← hc2]

/-- Witness for C5: a one-row table with both required columns is accepted. -/
theorem C5_validation_witness :
    (extract_cs_conditions (PyObj.df ["trial_type", "onset"] [⟨"US", 0⟩])).isOk = true :=
  (C5_validation.2.2 ["trial_type", "onset"] [⟨"US", 0⟩]).mpr (by decide)

/-- C2: in the augmented table produced by a successful
`extract_cs_conditions` call, a trial labelled `<family>_first` has onset
less than or equal to the onset of every trial labelled `<family>_others`
of the same family, for each of the three families. -/
theorem C2_first_is_earliest (x : PyObj) (r : ExtractResult)
    (h : extract_cs_conditions x = Except.ok r) :
    ∀ a ∈ r.df_work, ∀ b ∈ r.df_work,
      ((a.conditions = "CS-_first" ∧ b.conditions = "CS-_others") ∨
       (a.conditions = "CSS_first" ∧ b.conditions = "CSS_others") ∨
       (a.conditions = "CSR_first" ∧ b.conditions = "CSR_others")) →
      a.onset ≤ b.onset := by
  obtain ⟨columns, rows, rfl, hne, rfl⟩ := extract_ok_inv h
  intro a ha b hb hcase
  obtain ⟨i, hi, rfl⟩ := mem_extractCore_df_work.mp ha
  obtain ⟨j, hj, rfl⟩ := mem_extractCore_df_work.mp hb
  rcases hcase with ⟨ha1, hb1⟩ | ⟨ha1, hb1⟩ | ⟨ha1, hb1⟩
  · obtain ⟨hpa, hfa⟩ := condFor_cs_first_inv ha1
    obtain ⟨hpb, _⟩ := condFor_cs_others_inv hb1
    exact first_onset_le isCSminus rows hj hfa hi hpb
  · obtain ⟨hpa, hfa⟩ := condFor_css_first_inv ha1
    obtain ⟨hpb, _⟩ := condFor_css_others_inv hb1
    exact first_onset_le isCSSfam rows hj hfa hi hpb
  · obtain ⟨hpa, hfa⟩ := condFor_csr_first_inv ha1
    obtain ⟨hpb, _⟩ := condFor_csr_others_inv hb1
    exact first_onset_le isCSRfam rows hj hfa hi hpb

/-- Witness for C2: in Scenario A the CS- first trial (onset 5) precedes
the CS- other trial (onset 15). -/
theorem C2_first_is_earliest_witness :
    (⟨"CS-", 5, "CS-_first"⟩ : AugTrial).onset ≤
      (⟨"CS-", 15, "CS-_others"⟩ : AugTrial).onset :=
  C2_first_is_earliest (PyObj.df ["trial_type", "onset"] scenarioA)
    (extractCore scenarioA) rfl
    ⟨"CS-", 5, "CS-_first"⟩ (by decide)
    ⟨"CS-", 15, "CS-_others"⟩ (by decide)
    (Or.inl ⟨rfl, rfl⟩)

lemma extract_df_ok_inv {columns : List String} {rows : List Trial} {r : ExtractResult}
    (h : extract_cs_conditions (PyObj.df columns rows) = Except.ok r) :
    r = extractCore rows := by
  obtain ⟨c', r', heq, hne, hr⟩ := extract_ok_inv h
  cases heq
  exact hr

lemma familyTrials_ne_nil_iff (p : String → Bool) (rows : List Trial) :
    familyTrials p rows ≠ [] ↔
      1 ≤ (rows.filter (fun t => p t.trial_type)).length := by
  rw [Ne, ← List.length_eq_zero, familyTrials_length]
  omega

lemma familyTrials_two_le_iff (p : String → Bool) (rows : List Trial) :
    2 ≤ (familyTrials p rows).length ↔
      2 ≤ (rows.filter (fun t => p t.trial_type)).length := by
  rw [familyTrials_length]

/-- C3: for a successful extraction, `<family>_first` appears among the
derived labels iff the family has at least one matching trial,
`<family>_others` appears iff it has at least two, and a family with no
matching trial gets the summary `first = none, other = []` — for each of
the three families. -/
theorem C3_label_presence (columns : List String) (rows : List Trial) (r : ExtractResult)
    (h : extract_cs_conditions (PyObj.df columns rows) = Except.ok r) :
    (("CS-_first" ∈ r.df_work.map (·.conditions) ↔
        1 ≤ (rows.filter (fun t => isCSminus t.trial_type)).length) ∧
      ("CS-_others" ∈ r.df_work.map (·.conditions) ↔
        2 ≤ (rows.filter (fun t => isCSminus t.trial_type)).length) ∧
      ((rows.filter (fun t => isCSminus t.trial_type)).length = 0 →
        r.cs_conditions.first = none ∧ r.cs_conditions.other = [])) ∧
    (("CSS_first" ∈ r.df_work.map (·.conditions) ↔
        1 ≤ (rows.filter (fun t => isCSSfam t.trial_type)).length) ∧
      ("CSS_others" ∈ r.df_work.map (·.conditions) ↔
        2 ≤ (rows.filter (fun t => isCSSfam t.trial_type)).length) ∧
      ((rows.filter (fun t => isCSSfam t.trial_type)).length = 0 →
        r.css_conditions.first = none ∧ r.css_conditions.other = [])) ∧
    (("CSR_first" ∈ r.df_work.map (·.conditions) ↔
        1 ≤ (rows.filter (fun t => isCSRfam t.trial_type)).length) ∧
      ("CSR_others" ∈ r.df_work.map (·.conditions) ↔
        2 ≤ (rows.filter (fun t => isCSRfam t.trial_type)).length) ∧
      ((rows.filter (fun t => isCSRfam t.trial_type)).length = 0 →
        r.csr_conditions.first = none ∧ r.csr_conditions.other = [])) := by
  obtain rfl := extract_df_ok_inv h
  refine ⟨⟨?_, ?_, ?_⟩, ⟨?_, ?_, ?_⟩, ⟨?_, ?_, ?_⟩⟩
  · rw [cs_first_mem_iff, familyTrials_ne_nil_iff]
  · rw [cs_others_mem_iff, familyTrials_two_le_iff]
  · intro h0
    have hnil : familyTrials isCSminus rows = [] :=
      (familyTrials_eq_nil_iff _ _).mpr h0
    have hf : "CS-_first" ∉ (extractCore rows).df_work.map (·.conditions) := by
      rw [cs_first_mem_iff]
      simp [hnil]
    have ho : "CS-_others" ∉ (extractCore rows).df_work.map (·.conditions) := by
      rw [cs_others_mem_iff, hnil]
      simp
    rw [extractCore_cs_conditions]
    simp [mem_uniqueList, hf, ho]
  · rw [css_first_mem_iff, familyTrials_ne_nil_iff]
  · rw [css_others_mem_iff, familyTrials_two_le_iff]
  · intro h0
    have hnil : familyTrials isCSSfam rows = [] :=
      (familyTrials_eq_nil_iff _ _).mpr h0
    have hf : "CSS_first" ∉ (extractCore rows).df_work.map (·.conditions) := by
      rw [css_first_mem_iff]
      simp [hnil]
    have ho : "CSS_others" ∉ (extractCore rows).df_work.map (·.conditions) := by
      rw [css_others_mem_iff, hnil]
      simp
    rw [extractCore_css_conditions]
    simp [mem_uniqueList, hf, ho]
  · rw [csr_first_mem_iff, familyTrials_ne_nil_iff]
  · rw [csr_others_mem_iff, familyTrials_two_le_iff]
  · intro h0
    have hnil : familyTrials isCSRfam rows = [] :=
      (familyTrials_eq_nil_iff _ _).mpr h0
    have hf : "CSR_first" ∉ (extractCore rows).df_work.map (·.conditions) := by
      rw [csr_first_mem_iff]
      simp [hnil]
    have ho : "CSR_others" ∉ (extractCore rows).df_work.map (·.conditions) := by
      rw [csr_others_mem_iff, hnil]
      simp
    rw [extractCore_csr_conditions]
    simp [mem_uniqueList, hf, ho]

/-- Witness for C3: Scenario A has a CS- trial, so `CS-_first` appears. -/
theorem C3_label_presence_witness :
    "CS-_first" ∈ ((extractCore scenarioA).df_work.map (·.conditions)) :=
  ((C3_label_presence ["trial_type", "onset"] scenarioA
    (extractCore scenarioA) rfl).1.1).mpr (by decide)

lemma isCSminus_eq_true_iff (s : String) :
    isCSminus s = true ↔
      (pyStartsWith s "CS-" = true ∧ pyStartsWith s "CSS" = false ∧
        pyStartsWith s "CSR" = false) := by
  unfold isCSminus
  simp [Bool.and_eq_true, Bool.not_eq_true', and_assoc]

/-- C4: in a successful extraction, a trial whose raw label starts with
`"CSS"` or `"CSR"` is never labelled `CS-_first` or `CS-_others`, and a
trial gets a CS-family derived label exactly when its raw label starts
with `"CS-"` and starts with neither `"CSS"` nor `"CSR"`. -/
theorem C4_family_exclusivity (columns : List String) (rows : List Trial)
    (r : ExtractResult) (h : extract_cs_conditions (PyObj.df columns rows) = Except.ok r) :
    ∀ a ∈ r.df_work,
      ((pyStartsWith a.trial_type "CSS" = true ∨ pyStartsWith a.trial_type "CSR" = true) →
        a.conditions ≠ "CS-_first" ∧ a.conditions ≠ "CS-_others") ∧
      ((a.conditions = "CS-_first" ∨ a.conditions = "CS-_others") ↔
        (pyStartsWith a.trial_type "CS-" = true ∧ pyStartsWith a.trial_type "CSS" = false ∧
          pyStartsWith a.trial_type "CSR" = false)) := by
  obtain rfl := extract_df_ok_inv h
  intro a ha
  obtain ⟨i, hi, rfl⟩ := mem_extractCore_df_work.mp ha
  have hiff : (condFor rows i (rows[i]) = "CS-_first" ∨
      condFor rows i (rows[i]) = "CS-_others") ↔
      (pyStartsWith (rows[i]).trial_type "CS-" = true ∧
        pyStartsWith (rows[i]).trial_type "CSS" = false ∧
        pyStartsWith (rows[i]).trial_type "CSR" = false) := by
    constructor
    · rintro (hc | hc)
      · exact (isCSminus_eq_true_iff _).mp (condFor_cs_first_inv hc).1
      · exact (isCSminus_eq_true_iff _).mp (condFor_cs_others_inv hc).1
    · intro hp
      have hcs : isCSminus (rows[i]).trial_type = true := (isCSminus_eq_true_iff _).mpr hp
      unfold condFor
      rw [if_pos hcs]
      by_cases hfi : famFirstIdx isCSminus rows = some i
      · exact Or.inl (by rw [if_pos hfi])
      · exact Or.inr (by rw [if_neg hfi])
  refine ⟨?_, hiff⟩
  intro hstart
  constructor
  · intro hc
    obtain ⟨_, hss, hsr⟩ := hiff.mp (Or.inl hc)
    rcases hstart with hs | hs
    · rw [hss] at hs; exact Bool.noConfusion hs
    · rw [hsr] at hs; exact Bool.noConfusion hs
  · intro hc
    obtain ⟨_, hss, hsr⟩ := hiff.mp (Or.inr hc)
    rcases hstart with hs | hs
    · rw [hss] at hs; exact Bool.noConfusion hs
    · rw [hsr] at hs; exact Bool.noConfusion hs

/-- Witness for C4: in Scenario A the CSS trial at onset 10 is never given
a CS-family label. -/
theorem C4_family_exclusivity_witness :
    (⟨"CSS", 10, "CSS_first"⟩ : AugTrial).conditions ≠ "CS-_first" ∧
    (⟨"CSS", 10, "CSS_first"⟩ : AugTrial).conditions ≠ "CS-_others" :=
  (C4_family_exclusivity ["trial_type", "onset"] scenarioA (extractCore scenarioA) rfl
    ⟨"CSS", 10, "CSS_first"⟩ (by decide)).1 (Or.inl (by decide))

/-- C8: a successful extraction preserves the number of rows, and every
row falls in exactly one labelling class: a CS- family row labelled
`CS-_first`/`CS-_others`, a CSS family row labelled
`CSS_first`/`CSS_others`, a CSR family row labelled
`CSR_first`/`CSR_others`, or a non-family row keeping its raw label (the
four classes are mutually exclusive by their family-membership flags). -/
theorem C8_conservation_partition (columns : List String) (rows : List Trial)
    (r : ExtractResult) (h : extract_cs_conditions (PyObj.df columns rows) = Except.ok r) :
    r.df_work.length = rows.length ∧
    ∀ a ∈ r.df_work,
      (isCSminus a.trial_type = true ∧ isCSSfam a.trial_type = false ∧
        isCSRfam a.trial_type = false ∧
        (a.conditions = "CS-_first" ∨ a.conditions = "CS-_others")) ∨
      (isCSminus a.trial_type = false ∧ isCSSfam a.trial_type = true ∧
        isCSRfam a.trial_type = false ∧
        (a.conditions = "CSS_first" ∨ a.conditions = "CSS_others")) ∨
      (isCSminus a.trial_type = false ∧ isCSSfam a.trial_type = false ∧
        isCSRfam a.trial_type = true ∧
        (a.conditions = "CSR_first" ∨ a.conditions = "CSR_others")) ∨
      (isCSminus a.trial_type = false ∧ isCSSfam a.trial_type = false ∧
        isCSRfam a.trial_type = false ∧ a.conditions = a.trial_type) := by
  obtain rfl := extract_df_ok_inv h
  refine ⟨extractCore_df_work_length rows, ?_⟩
  intro a ha
  obtain ⟨i, hi, rfl⟩ := mem_extractCore_df_work.mp ha
  by_cases hcs : isCSminus (rows[i]).trial_type = true
  · refine Or.inl ⟨hcs, isCSminus_not_css hcs, isCSminus_not_csr hcs, ?_⟩
    show condFor rows i (rows[i]) = "CS-_first" ∨ condFor rows i (rows[i]) = "CS-_others"
    unfold condFor
    rw [if_pos hcs]
    by_cases hfi : famFirstIdx isCSminus rows = some i
    · exact Or.inl (by rw [if_pos hfi])
    · exact Or.inr (by rw [if_neg hfi])
  · by_cases hss : isCSSfam (rows[i]).trial_type = true
    · refine Or.inr (Or.inl ⟨Bool.not_eq_true _ ▸ hcs, hss, css_not_csr hss, ?_⟩)
      show condFor rows i (rows[i]) = "CSS_first" ∨ condFor rows i (rows[i]) = "CSS_others"
      unfold condFor
      rw [if_neg hcs, if_pos hss]
      by_cases hfi : famFirstIdx isCSSfam rows = some i
      · exact Or.inl (by rw [if_pos hfi])
      · exact Or.inr (by rw [if_neg hfi])
    · by_cases hsr : isCSRfam (rows[i]).trial_type = true
      · refine Or.inr (Or.inr (Or.inl
          ⟨Bool.not_eq_true _ ▸ hcs, Bool.not_eq_true _ ▸ hss, hsr, ?_⟩))
        show condFor rows i (rows[i]) = "CSR_first" ∨ condFor rows i (rows[i]) = "CSR_others"
        unfold condFor
        rw [if_neg hcs, if_neg hss, if_pos hsr]
        by_cases hfi : famFirstIdx isCSRfam rows = some i
        · exact Or.inl (by rw [if_pos hfi])
        · exact Or.inr (by rw [if_neg hfi])
      · refine Or.inr (Or.inr (Or.inr
          ⟨Bool.not_eq_true _ ▸ hcs, Bool.not_eq_true _ ▸ hss, Bool.not_eq_true _ ▸ hsr, ?_⟩))
        show condFor rows i (rows[i]) = (rows[i]).trial_type
        unfold condFor
        rw [if_neg hcs, if_neg hss, if_neg hsr]

/-- Witness for C8: Scenario A's augmented table has as many rows as its
input. -/
theorem C8_conservation_partition_witness :
    (extractCore scenarioA).df_work.length = scenarioA.length :=
  (C8_conservation_partition ["trial_type", "onset"] scenarioA
    (extractCore scenarioA) rfl).1

/-- Counterexample to C9: the label `"CSX"` matches none of the three
families (so per the claim it should be reported in `other_conditions`),
yet the code returns an empty `other_conditions` because `"CSX"` starts
with `"CS"`. -/
theorem C9_counterexample :
    (extract_cs_conditions (PyObj.df ["trial_type", "onset"] csxTable)).map
      (fun r => r.other_conditions) = Except.ok [] ∧
    isCSminus "CSX" = false ∧ isCSSfam "CSX" = false ∧ isCSRfam "CSX" = false ∧
    (extract_cs_conditions (PyObj.df ["trial_type", "onset"] csxTable)).map
      (fun r => r.df_work.map (·.trial_type)) = Except.ok ["CSX"] := by decide

/-- C9 (amended): `other_conditions` is exactly the deduplicated list of
raw labels that do not start with `"CS"` (not: labels matching none of the
three families), and every trial whose label matches none of the three
families keeps its raw label as derived label. -/
theorem C9_other_conditions_amended (columns : List String) (rows : List Trial)
    (r : ExtractResult) (h : extract_cs_conditions (PyObj.df columns rows) = Except.ok r) :
    (∀ s, s ∈ r.other_conditions ↔
      ∃ t ∈ rows, t.trial_type = s ∧ pyStartsWith s "CS" = false) ∧
    r.other_conditions.Nodup ∧
    (∀ a ∈ r.df_work,
      isCSminus a.trial_type = false → isCSSfam a.trial_type = false →
      isCSRfam a.trial_type = false → a.conditions = a.trial_type) := by
  obtain rfl := extract_df_ok_inv h
  refine ⟨?_, ?_, ?_⟩
  · intro s
    rw [extractCore_other_conditions, mem_uniqueList]
    constructor
    · intro hs
      rw [List.mem_map] at hs
      obtain ⟨a, haf, hat⟩ := hs
      rw [List.mem_filter] at haf
      obtain ⟨ha, hg⟩ := haf
      obtain ⟨i, hi, rfl⟩ := mem_extractCore_df_work.mp ha
      refine ⟨rows[i], List.mem_iff_getElem.mpr ⟨i, hi, rfl⟩, hat, ?_⟩
      rw [← hat]
      simpa using hg
    · rintro ⟨t, ht, hts, hcs⟩
      subst hts
      obtain ⟨i, hi, hir⟩ := List.mem_iff_getElem.mp ht
      rw [List.mem_map]
      refine ⟨⟨(rows[i]).trial_type, (rows[i]).onset, condFor rows i (rows[i])⟩, ?_, by rw [hir]⟩
      rw [List.mem_filter]
      refine ⟨mem_extractCore_df_work.mpr ⟨i, hi, rfl⟩, ?_⟩
      simp [hir, hcs]
  · rw [extractCore_other_conditions]
    exact nodup_uniqueList _
  · intro a ha hcs hss hsr
    obtain ⟨i, hi, rfl⟩ := mem_extractCore_df_work.mp ha
    show condFor rows i (rows[i]) = (rows[i]).trial_type
    unfold condFor
    rw [if_neg ?h1, if_neg ?h2, if_neg ?h3]
    case h1 => intro hx; rw [hx] at hcs; exact Bool.noConfusion hcs
    case h2 => intro hx; rw [hx] at hss; exact Bool.noConfusion hss
    case h3 => intro hx; rw [hx] at hsr; exact Bool.noConfusion hsr

/-- Witness for the amended C9: `"US"` (not CS-prefixed, present in
Scenario A) is reported in `other_conditions`. -/
theorem C9_other_conditions_amended_witness :
    "US" ∈ (extractCore scenarioA).other_conditions :=
  ((C9_other_conditions_amended ["trial_type", "onset"] scenarioA
    (extractCore scenarioA) rfl).1 "US").mpr ⟨⟨"US", 30⟩, by decide, rfl, by decide⟩

lemma interesting_mem_refs_iff (df : List AugTrial) (n : String)
    (hn : n ∈ interestingContrastNames) (A B : String)
    (hsplit : pySplit n " > " = [A, B]) :
    (∃ c ∈ create_interesting_contrasts df, c.name = n) ↔
      ∀ s ∈ contrastRefs n, s ∈ df.map (·.conditions) ∧ 0 < condCount df s := by
  rw [interesting_mem_iff df n A B hn hsplit]
  unfold contrastRefs
  rw [hsplit]
  simp only [List.map_cons, List.map_nil, List.mem_cons, List.mem_singleton,
    mem_uniqueList, List.not_mem_nil]
  constructor
  · rintro ⟨h1, h2, h3, h4⟩ s hs
    rcases hs with rfl | rfl | habs
    · exact ⟨h1, h3⟩
    · exact ⟨h2, h4⟩
    · cases habs
  · intro hall
    obtain ⟨h1, h3⟩ := hall (pyStrip A) (Or.inl rfl)
    obtain ⟨h2, h4⟩ := hall (pyStrip B) (Or.inr (Or.inl rfl))
    exact ⟨h1, h2, h3, h4⟩

/-- Counterexample to C6: on a table with zero CSR-prefixed trials (and
CS-, CSS families with two trials each plus FIXATION), the curated policy
keeps only four contrasts — five of the nine reference `CSR_others` — so
the claimed count of five remaining contrasts is wrong. -/
theorem C6_counterexample :
    (scenarioD.filter (fun t => isCSRfam t.trial_type)).length = 0 ∧
    2 ≤ (scenarioD.filter (fun t => isCSminus t.trial_type)).length ∧
    2 ≤ (scenarioD.filter (fun t => isCSSfam t.trial_type)).length ∧
    (extract_cs_conditions (PyObj.df ["trial_type", "onset"] scenarioD)).map
      (fun r => (create_interesting_contrasts r.df_work).map (·.name)) =
      Except.ok ["CS-_others > FIXATION", "CSS_others > FIXATION",
        "CSS_others > CS-_others", "CS-_others > CSS_others"] ∧
    (extract_cs_conditions (PyObj.df ["trial_type", "onset"] scenarioD)).map
      (fun r => (create_interesting_contrasts r.df_work).length) ≠
      Except.ok 5 := by decide

/-- C6 (amended): under the curated policy each of the nine fixed
contrasts is included iff every derived condition label it references is
present with trial count > 0; for a table with zero CSR-prefixed trials
the five contrasts referencing `CSR_others` are dropped and (CS- and CSS
each having ≥ 2 trials and FIXATION being present) exactly the remaining
four are returned, each a T-contrast with weights [1, -1]. -/
theorem C6_curated_amended :
    (∀ (df : List AugTrial) (n : String), n ∈ interestingContrastNames →
      ((∃ c ∈ create_interesting_contrasts df, c.name = n) ↔
        ∀ s ∈ contrastRefs n, s ∈ df.map (·.conditions) ∧ 0 < condCount df s)) ∧
    (extract_cs_conditions (PyObj.df ["trial_type", "onset"] scenarioD)).map
      (fun r => create_interesting_contrasts r.df_work) =
      Except.ok
        [⟨"CS-_others > FIXATION", "T", ["CS-_others", "FIXATION"], [1, -1]⟩,
         ⟨"CSS_others > FIXATION", "T", ["CSS_others", "FIXATION"], [1, -1]⟩,
         ⟨"CSS_others > CS-_others", "T", ["CSS_others", "CS-_others"], [1, -1]⟩,
         ⟨"CS-_others > CSS_others", "T", ["CS-_others", "CSS_others"], [1, -1]⟩] := by
  constructor
  · intro df n hn
    fin_cases hn
    · exact interesting_mem_refs_iff df _ (by decide) "CS-_others" "FIXATION" (by decide)
    · exact interesting_mem_refs_iff df _ (by decide) "CSS_others" "FIXATION" (by decide)
    · exact interesting_mem_refs_iff df _ (by decide) "CSR_others" "FIXATION" (by decide)
    · exact interesting_mem_refs_iff df _ (by decide) "CSS_others" "CSR_others" (by decide)
    · exact interesting_mem_refs_iff df _ (by decide) "CSR_others" "CSS_others" (by decide)
    · exact interesting_mem_refs_iff df _ (by decide) "CSS_others" "CS-_others" (by decide)
    · exact interesting_mem_refs_iff df _ (by decide) "CSR_others" "CS-_others" (by decide)
    · exact interesting_mem_refs_iff df _ (by decide) "CS-_others" "CSS_others" (by decide)
    · exact interesting_mem_refs_iff df _ (by decide) "CS-_others" "CSR_others" (by decide)
  · decide

/-- Witness for the amended C6: on the zero-CSR table, the curated
contrast `CS-_others > FIXATION` (whose referenced conditions both exist
with trials) is included. -/
theorem C6_curated_amended_witness :
    ∃ c ∈ create_interesting_contrasts (extractCore scenarioD).df_work,
      c.name = "CS-_others > FIXATION" :=
  (C6_curated_amended.1 (extractCore scenarioD).df_work "CS-_others > FIXATION"
    (by decide)).mpr (by decide)

/-- C7: a successful `create_contrasts` call under the `standard` policy
returns exactly the spec's pairwise list — for each pair of distinct
derived labels (A, B) with A before B in enumeration order, `A>B` with
weights [1, -1] immediately followed by `A<B` with weights [-1, 1], in
double-loop order — and hence `n * (n - 1)` contrasts for `n` distinct
derived labels. -/
theorem C7_standard_policy (x : PyObj) (cs : List Contrast) (conds : List String)
    (df : List AugTrial)
    (h : create_contrasts x "standard" = Except.ok (cs, conds, df)) :
    cs = standardPairsSpec conds ∧ cs.length = conds.length * (conds.length - 1) := by
  unfold create_contrasts extract_cs_conditions_new at h
  cases hx : extract_cs_conditions x with
  | error e =>
    rw [hx] at h
    exact Except.noConfusion h
  | ok r =>
    rw [hx] at h
    simp only [] at h
    have h' := Except.ok.inj h
    injection h' with hcs h''
    injection h'' with hconds hdf
    subst hcs
    subst hconds
    constructor
    · exact double_loop_eq_spec _
    · have hlen := standardPairsSpec_length (uniqueList (r.df_work.map (·.conditions)))
      rw [← double_loop_eq_spec] at hlen
      exact hlen

/-- Witness for C7: on a table with the two derived labels US and
FIXATION, the standard policy gives the two pairwise contrasts, matching
`2 * (2 - 1)`. -/
theorem C7_standard_policy_witness :
    ([⟨"US>FIXATION", "T", ["US", "FIXATION"], [1, -1]⟩,
      ⟨"US<FIXATION", "T", ["US", "FIXATION"], [-1, 1]⟩] : List Contrast) =
        standardPairsSpec ["US", "FIXATION"] ∧
    ([⟨"US>FIXATION", "T", ["US", "FIXATION"], [1, -1]⟩,
      ⟨"US<FIXATION", "T", ["US", "FIXATION"], [-1, 1]⟩] : List Contrast).length =
        (["US", "FIXATION"] : List String).length *
          ((["US", "FIXATION"] : List String).length - 1) :=
  C7_standard_policy (PyObj.df ["trial_type", "onset"] pair2Table)
    [⟨"US>FIXATION", "T", ["US", "FIXATION"], [1, -1]⟩,
     ⟨"US<FIXATION", "T", ["US", "FIXATION"], [-1, 1]⟩]
    ["US", "FIXATION"]
    [⟨"US", 0, "US"⟩, ⟨"FIXATION", 1, "FIXATION"⟩]
    (by decide)

/-- C10: for any recognised-valid trial table, `create_contrasts` with a
`contrast_type` other than `minimal` or `standard` returns normally with
an empty contrast list, alongside the condition list and the augmented
table. -/
theorem C10_unknown_policy_empty (x : PyObj) (ct : String) (r : ExtractResult)
    (h1 : ct ≠ "minimal") (h2 : ct ≠ "standard")
    (h : extract_cs_conditions x = Except.ok r) :
    create_contrasts x ct =
      Except.ok ([], uniqueList (r.df_work.map (·.conditions)), r.df_work) := by
  unfold create_contrasts extract_cs_conditions_new
  rw [h]
  simp only []
  rw [if_neg h1, if_neg h2]

/-- Witness for C10: the unrecognised policy `"custom"` yields an empty
contrast list on a concrete valid table. -/
theorem C10_unknown_policy_empty_witness :
    create_contrasts (PyObj.df ["trial_type", "onset"] csxTable) "custom" =
      Except.ok ([], ["CSX"], [⟨"CSX", 0, "CSX"⟩]) := by
  rw [C10_unknown_policy_empty (PyObj.df ["trial_type", "onset"] csxTable) "custom"
    (extractCore csxTable) (by decide) (by decide) rfl]
  decide
